import Mathlib

/-!
# Verification of the Reducx-Demo authentication subsystem

Shallow embedding of the session/authentication subsystem of the
`Reducx-Demo` repository:

* `src/Service/authService.ts` — `decodeJWT`, `handleApiResponse`, `login`,
  `logout`, `getStoredUser`, `isAuthenticated`;
* `src/features/auth/authSlice.ts` — `initialState`, the `logout`,
  `clearError` reducers and the `loginAsync.pending/fulfilled/rejected`
  extra reducers;
* `src/Components/Login.tsx` — the `loginHandler` submit guard.

Browser/platform primitives used by that code (`atob`, `JSON.parse` /
`JSON.stringify` restricted to the flat string-valued objects the code
produces and consumes, `localStorage`, `String.prototype.split` and
`trim`, and `fetch`) are modelled as executable Lean functions; `fetch`
outcomes are passed in explicitly as a `FetchResult` value.
-/

namespace Reducx

/-! ## Platform model: `atob` (forgiving base64 decode) -/

/-- Value of a base64 alphabet character, `none` for characters outside the
alphabet. -/
def b64Val (c : Char) : Option Nat :=
  if 'A' ≤ c ∧ c ≤ 'Z' then some (c.toNat - 65)
  else if 'a' ≤ c ∧ c ≤ 'z' then some (c.toNat - 97 + 26)
  else if '0' ≤ c ∧ c ≤ '9' then some (c.toNat - 48 + 52)
  else if c = '+' then some 62
  else if c = '/' then some 63
  else none

/-- ASCII whitespace stripped by the forgiving-base64 decoder. -/
def isB64Ws (c : Char) : Bool :=
  c = ' ' || c = '\t' || c = '\n' || c = '\r' || c = '\x0c'

/-- Remove one or two trailing `=` padding characters. -/
def stripPad (cs : List Char) : List Char :=
  match cs.reverse with
  | '=' :: '=' :: rest => rest.reverse
  | '=' :: rest => rest.reverse
  | _ => cs

/-- Map every character through the base64 alphabet, failing on a character
outside it. -/
def b64Sextets : List Char → Option (List Nat)
  | [] => some []
  | c :: cs =>
    match b64Val c, b64Sextets cs with
    | some v, some vs => some (v :: vs)
    | _, _ => none

/-- Repack a list of 6-bit groups into 8-bit bytes, discarding leftover
bits, as the forgiving-base64 decoder does. `acc`/`nbits` hold the pending
bit buffer. -/
def sextetsToBytes : List Nat → Nat → Nat → List Nat
  | [], _, _ => []
  | v :: vs, acc, nbits =>
    let acc2 := acc * 64 + v
    let nbits2 := nbits + 6
    if nbits2 ≥ 8 then
      (acc2 / 2 ^ (nbits2 - 8)) :: sextetsToBytes vs (acc2 % 2 ^ (nbits2 - 8)) (nbits2 - 8)
    else
      sextetsToBytes vs acc2 nbits2

/-- Model of the browser `atob` primitive (WHATWG forgiving-base64 decode):
strip ASCII whitespace, strip up to two trailing `=` when the length is a
multiple of four, reject a remainder of one character or any character
outside the alphabet, and return the decoded bytes. -/
def atob (s : List Char) : Option (List Nat) :=
  let cs := s.filter (fun c => !(isB64Ws c))
  let cs := if cs.length % 4 = 0 then stripPad cs else cs
  if cs.length % 4 = 1 then none
  else (b64Sextets cs).map (fun vs => sextetsToBytes vs 0 0)

/-! ## Platform model: `JSON.parse` / `JSON.stringify` on flat records

The code only ever parses and serializes flat objects whose values are
strings (the JWT payload claims it projects, and the stored `user`
record).  `JSON.parse` is therefore modelled on the fragment
`{"k":"v",...}` of canonical (no inter-token whitespace, no escape
sequences in string literals) flat string-valued objects, returning the
key/value list; anything outside the fragment fails, as `JSON.parse`
raises on malformed input. -/

/-- Parse the body of a JSON string literal up to its closing quote,
returning the contents and the rest of the input.  Escape sequences are
outside the modelled fragment, so a backslash fails. -/
def parseStringChars : List Char → Option (List Char × List Char)
  | [] => none
  | c :: rest =>
    if c = '"' then some ([], rest)
    else if c = '\\' then none
    else
      match parseStringChars rest with
      | some (s, r) => some (c :: s, r)
      | none => none

/-- Characters allowed inside a string literal of the modelled JSON
fragment: anything but the closing quote and the escape character. -/
def CleanChars (cs : List Char) : Prop :=
  ∀ c ∈ cs, c ≠ '"' ∧ c ≠ '\\'

/-- Parse one `"k":"v"` member, returning it and the rest of the
input. -/
def parseMember (cs : List Char) : Option ((String × String) × List Char) :=
  match cs with
  | '"' :: cs1 =>
    match parseStringChars cs1 with
    | some (k, ':' :: '"' :: cs3) =>
      match parseStringChars cs3 with
      | some (v, cs4) => some ((k.asString, v.asString), cs4)
      | none => none
    | _ => none
  | _ => none

/-- Parse one or more members separated by `,` and closed by `}`,
fuelled by the input length (each member consumes at least one
character, so input length is always enough fuel). -/
def parseMembers : Nat → List Char → Option (List (String × String) × List Char)
  | 0, _ => none
  | fuel + 1, cs =>
    match parseMember cs with
    | some (m, '}' :: r) => some ([m], r)
    | some (m, ',' :: cs5) =>
      match parseMembers fuel cs5 with
      | some (ms, r) => some (m :: ms, r)
      | none => none
    | _ => none

/-- Model of `JSON.parse` on the flat string-valued record fragment. -/
def jsonParseRecord (cs : List Char) : Option (List (String × String)) :=
  match cs with
  | '{' :: body =>
    if body = ['}'] then some []
    else
      match parseMembers body.length body with
      | some (ms, []) => some ms
      | _ => none
  | _ => none

/-- JavaScript property access `record.key`: first binding of the key, or
`undefined` (here `none`). -/
def lookupField (k : String) : List (String × String) → Option String
  | [] => none
  | (k2, v) :: rest => if k2 = k then some v else lookupField k rest

/-! ## Platform model: `String.prototype.split` and `trim` -/

/-- JavaScript `s.split(sep)` for a one-character separator: always returns
at least one (possibly empty) segment. -/
def jsSplit (sep : Char) : List Char → List (List Char)
  | [] => [[]]
  | c :: rest =>
    let r := jsSplit sep rest
    if c = sep then [] :: r
    else
      match r with
      | h :: t => (c :: h) :: t
      | [] => [[c]]

/-- Whitespace removed by JavaScript `String.prototype.trim` (ASCII part). -/
def isJsSpace (c : Char) : Bool :=
  c = ' ' || c = '\t' || c = '\n' || c = '\r' || c = '\x0b' || c = '\x0c'

/-- Model of JavaScript `s.trim()`. -/
def jsTrim (cs : List Char) : List Char :=
  ((cs.dropWhile isJsSpace).reverse.dropWhile isJsSpace).reverse

/-! ## Data model (`authService.ts`, `authSlice.ts`) -/

/-- The decoded user info object built by `login` from the JWT payload
(`{email, nameid, unique_name, role}`).  Each field is `Option String`
because in JavaScript a claim missing from the payload leaves the
property `undefined`. -/
structure UserInfo where
  email : Option String
  nameid : Option String
  unique_name : Option String
  role : Option String
deriving DecidableEq, Repr

/-- Credentials record `LoginRequest`: `{email, password}`. -/
structure LoginRequest where
  email : String
  password : String
deriving DecidableEq, Repr

/-- JSON body of the server's reply.  For a non-2xx reply only `message`
is meaningful (`""` models an absent or empty message, both falsy). -/
structure LoginBody where
  success : Bool
  accessToken : String
  refreshToken : String
  message : String
deriving DecidableEq, Repr

/-- An HTTP response: the `ok` flag (status in the 2xx range) and the
parsed JSON body. -/
structure HttpResponse where
  ok : Bool
  body : LoginBody
deriving DecidableEq, Repr

/-- Outcome of the `fetch` call: transport-level rejection, or a response
with some status and body. -/
inductive FetchResult where
  | networkError
  | response (resp : HttpResponse)
deriving DecidableEq, Repr

/-- What `login` resolves with: the response body plus the optional `user`
property attached after a successful decode (`data.user = userInfo`). -/
structure LoginData where
  success : Bool
  accessToken : String
  refreshToken : String
  message : String
  user : Option UserInfo
deriving DecidableEq, Repr

/-- The `localStorage` contents restricted to the three keys the code
uses: `accessToken`, `refreshToken`, `user` (serialized as text). -/
structure SessionStore where
  accessToken : Option String
  refreshToken : Option String
  user : Option String
deriving DecidableEq, Repr

/-- The store with none of the three keys present. -/
def emptyStore : SessionStore := ⟨none, none, none⟩

/-- State record `AuthState` from `authSlice.ts`. -/
structure AuthState where
  user : Option UserInfo
  accessToken : Option String
  refreshToken : Option String
  isAuthenticated : Bool
  loading : Bool
  error : Option String
  loginMessage : Option String
deriving DecidableEq, Repr

/-! ## `authService.ts` -/

/-- Source `decodeJWT`: take the segment at index 1 of the token split on `.`
(`token.split('.')[1]`), `atob` it, `JSON.parse` the bytes.  Any failure
along the way (missing segment, invalid base64, unparsable bytes) is
caught and yields `null` — never an exception. -/
def decodeJWT (token : String) : Option (List (String × String)) :=
  match (jsSplit '.' token.data)[1]? with
  | none => none
  | some payload =>
    match atob payload with
    | none => none
    | some bytes => jsonParseRecord (bytes.map Char.ofNat)

/-- Source `handleApiResponse`: return the body on a 2xx response, otherwise
throw `AuthError(data.message || 'An error occurred', status)` — modelled
as `Except.error` carrying the message string the slice will surface. -/
def handleApiResponse (resp : HttpResponse) : Except String LoginBody :=
  if resp.ok then Except.ok resp.body
  else Except.error (if resp.body.message = "" then "An error occurred" else resp.body.message)

/-- The user info object `login` builds from the decoded payload record:
`{email: d.email, nameid: d.nameid, unique_name: d.unique_name,
role: d.role}`. -/
def userInfoOfRecord (d : List (String × String)) : UserInfo :=
  ⟨lookupField "email" d, lookupField "nameid" d,
   lookupField "unique_name" d, lookupField "role" d⟩

/-- One serialized member `"k":"v"`. -/
def stringifyMember (m : String × String) : List Char :=
  '"' :: m.1.data ++ '"' :: ':' :: '"' :: m.2.data ++ ['"']

/-- Serialized members joined by `,`. -/
def stringifyMembers : List (String × String) → List Char
  | [] => []
  | [m] => stringifyMember m
  | m :: ms => stringifyMember m ++ ',' :: stringifyMembers ms

/-- Serialization (`JSON.stringify`) of a flat string-valued record (in insertion order,
canonical form). -/
def stringifyRecord (ms : List (String × String)) : List Char :=
  '{' :: stringifyMembers ms ++ ['}']

/-- One record entry for a property, empty when the property is
`undefined` (as `JSON.stringify` drops it). -/
def optEntry (k : String) (v : Option String) : List (String × String) :=
  match v with
  | some x => [(k, x)]
  | none => []

/-- Serialization `JSON.stringify(userInfo)`: serialize the four properties in
declaration order, dropping `undefined` ones as `JSON.stringify` does. -/
def userToRecord (u : UserInfo) : List (String × String) :=
  optEntry "email" u.email ++ optEntry "nameid" u.nameid
    ++ optEntry "unique_name" u.unique_name ++ optEntry "role" u.role

def stringifyUser (u : UserInfo) : String :=
  (stringifyRecord (userToRecord u)).asString

/-- Source `login`: POST the credentials (the `fetch` outcome is the explicit
`fr` argument), run `handleApiResponse`; on `data.success &&
data.accessToken` store both tokens, decode the JWT, and if the decode
produced a record, store the serialized user info and attach it to the
returned data.  A decode failure does NOT make `login` reject: the
resolved data merely lacks `user`.  Errors reject with the `AuthError`
message (transport errors with `'Network error or server unavailable'`).
Returns the settled promise and the updated store. -/
def login (fr : FetchResult) (store : SessionStore) :
    Except String LoginData × SessionStore :=
  match fr with
  | FetchResult.networkError =>
    (Except.error "Network error or server unavailable", store)
  | FetchResult.response resp =>
    match handleApiResponse resp with
    | Except.error m => (Except.error m, store)
    | Except.ok data =>
      if data.success = true ∧ data.accessToken ≠ "" then
        let store1 : SessionStore :=
          { store with accessToken := some data.accessToken,
                       refreshToken := some data.refreshToken }
        match decodeJWT data.accessToken with
        | some d =>
          let userInfo := userInfoOfRecord d
          (Except.ok ⟨data.success, data.accessToken, data.refreshToken,
                      data.message, some userInfo⟩,
           { store1 with user := some (stringifyUser userInfo) })
        | none =>
          (Except.ok ⟨data.success, data.accessToken, data.refreshToken,
                      data.message, none⟩, store1)
      else
        (Except.ok ⟨data.success, data.accessToken, data.refreshToken,
                    data.message, none⟩, store)

/-- Source `logout` in `authService.ts`: remove the three keys. -/
def serviceLogout (_store : SessionStore) : SessionStore := emptyStore

/-- Source `getStoredUser`: `JSON.parse` the stored `user` entry if present.
(For a present but unparsable entry `JSON.parse` would throw; the code
never writes such an entry, and the model returns `none` there.) -/
def getStoredUser (store : SessionStore) : Option UserInfo :=
  match store.user with
  | none => none
  | some s =>
    match jsonParseRecord s.data with
    | some d => some (userInfoOfRecord d)
    | none => none

/-- Source `isAuthenticated`: `!!getToken()` — true exactly when the
`accessToken` key is present and non-empty (JS truthiness). -/
def isAuthenticatedFn (store : SessionStore) : Bool :=
  match store.accessToken with
  | some t => !(t == "")
  | none => false

/-! ## `authSlice.ts` -/

/-- Source `initialState`: seeded from the store — `getStoredUser() || null`,
the two stored tokens, `isAuthenticated()`, and null/false for the
rest. -/
def initialStateFrom (store : SessionStore) : AuthState :=
  { user := getStoredUser store
    accessToken := store.accessToken
    refreshToken := store.refreshToken
    isAuthenticated := isAuthenticatedFn store
    loading := false
    error := none
    loginMessage := none }

/-- The `logout` reducer: clear the store via `logoutApi()` and null every
in-memory field. -/
def logoutReducer (p : AuthState × SessionStore) : AuthState × SessionStore :=
  (⟨none, none, none, false, false, none, none⟩, serviceLogout p.2)

/-- The `clearError` reducer. -/
def clearErrorReducer (s : AuthState) : AuthState :=
  { s with error := none }

/-- The `loginAsync.pending` reducer. -/
def pendingReducer (s : AuthState) : AuthState :=
  { s with loading := true, error := none }

/-- The `loginAsync.fulfilled` reducer: `x || null` on the payload
fields (empty strings are falsy), `isAuthenticated := true`
unconditionally. -/
def fulfilledReducer (s : AuthState) (payload : LoginData) : AuthState :=
  { s with loading := false
           user := payload.user
           accessToken := if payload.accessToken = "" then none else some payload.accessToken
           refreshToken := if payload.refreshToken = "" then none else some payload.refreshToken
           isAuthenticated := true
           error := none
           loginMessage := if payload.message = "" then none else some payload.message }

/-- The `loginAsync.rejected` reducer. -/
def rejectedReducer (s : AuthState) (msg : String) : AuthState :=
  { s with loading := false
           user := none
           accessToken := none
           refreshToken := none
           isAuthenticated := false
           error := some msg
           loginMessage := none }

/-- One full `loginAsync` dispatch: the `pending` reducer fires, the thunk
awaits `login`; a resolved promise fulfills with the data, a rejected one
is converted by `rejectWithValue(error.message)` into the `rejected`
reducer. -/
def loginAsyncOp (fr : FetchResult) (p : AuthState × SessionStore) :
    AuthState × SessionStore :=
  let s1 := pendingReducer p.1
  match login fr p.2 with
  | (Except.ok data, store2) => (fulfilledReducer s1 data, store2)
  | (Except.error m, store2) => (rejectedReducer s1 m, store2)

/-! ## `Login.tsx` -/

/-- Source `loginHandler`: return without dispatching when either credential is
empty after trimming; otherwise dispatch `loginAsync`.  The `Bool` in the
result records whether the network call was made. -/
def loginHandler (creds : LoginRequest) (fr : FetchResult)
    (p : AuthState × SessionStore) : (AuthState × SessionStore) × Bool :=
  if jsTrim creds.email.data = [] ∨ jsTrim creds.password.data = [] then
    (p, false)
  else
    (loginAsyncOp fr p, true)

/-! ## Reachable states -/

/-- The operations the UI can drive the slice with. -/
inductive AuthOp where
  | login (fr : FetchResult)
  | logout
  | clearError
deriving Repr

/-- Apply one operation to the in-memory state and the store. -/
def applyOp (op : AuthOp) (p : AuthState × SessionStore) :
    AuthState × SessionStore :=
  match op with
  | AuthOp.login fr => loginAsyncOp fr p
  | AuthOp.logout => logoutReducer p
  | AuthOp.clearError => (clearErrorReducer p.1, p.2)

def runOps (ops : List AuthOp) (p : AuthState × SessionStore) :
    AuthState × SessionStore :=
  ops.foldl (fun q op => applyOp op q) p

/-- A state/store pair reachable from a fresh start (empty store) by some
sequence of login, logout and clearError operations. -/
def Reachable (p : AuthState × SessionStore) : Prop :=
  ∃ ops : List AuthOp, runOps ops (initialStateFrom emptyStore, emptyStore) = p

/-! ## Concrete fixtures -/

/-- Scenario A's access token: header `hdr`, payload the base64 of
`{"email":"a@b.com","nameid":"42","unique_name":"Alice","role":"Admin"}`,
signature `sig`. -/
def tokenA : String :=
  "hdr.eyJlbWFpbCI6ImFAYi5jb20iLCJuYW1laWQiOiI0MiIsInVuaXF1ZV9uYW1lIjoiQWxpY2UiLCJyb2xlIjoiQWRtaW4ifQ==.sig"

def bodyA : LoginBody := ⟨true, tokenA, "r1", "ok"⟩

def fetchA : FetchResult := FetchResult.response ⟨true, bodyA⟩

/-- A 2xx success body whose access token has no `.` and hence fails to
decode. -/
def bodyBad : LoginBody := ⟨true, "notajwt", "r1", "ok"⟩

def fetchBad : FetchResult := FetchResult.response ⟨true, bodyBad⟩

/-- Fresh start: empty store, initial state seeded from it. -/
def freshStart : AuthState × SessionStore :=
  (initialStateFrom emptyStore, emptyStore)

/-- The in-memory shape `logout` resets to. -/
def loggedOutState : AuthState :=
  ⟨none, none, none, false, false, none, none⟩

/-- A token whose single `.` yields two segments, the second being the
base64 of `{"email":"x"}`. -/
def oneDotToken : String := "h.eyJlbWFpbCI6IngifQ=="

end Reducx

namespace Reducx

/-! ## C9 — `clearError` clears only the error field -/

/-- C9: for every starting Auth State, `clearError` sets `error` to null
and leaves user, accessToken, refreshToken, isAuthenticated, loading and
loginMessage unchanged; being stated for every state, it is available
from any state. -/
theorem clearError_only_clears_error (s : AuthState) :
    (clearErrorReducer s).error = none ∧
    (clearErrorReducer s).user = s.user ∧
    (clearErrorReducer s).accessToken = s.accessToken ∧
    (clearErrorReducer s).refreshToken = s.refreshToken ∧
    (clearErrorReducer s).isAuthenticated = s.isAuthenticated ∧
    (clearErrorReducer s).loading = s.loading ∧
    (clearErrorReducer s).loginMessage = s.loginMessage := by
  simp [clearErrorReducer]

/-! ## C8 — logout is idempotent and a no-op when already logged out -/

/-- C8: `logout` composed with `logout` equals `logout` on every
state/store pair, and invoking it from the already-logged-out
configuration (empty store, unauthenticated state) changes nothing;
it is a total function, so it never fails. -/
theorem logout_idempotent_and_noop_when_loggedOut :
    (∀ p : AuthState × SessionStore, logoutReducer (logoutReducer p) = logoutReducer p) ∧
    logoutReducer (loggedOutState, emptyStore) = (loggedOutState, emptyStore) :=
  ⟨fun _ => rfl, rfl⟩

/-! ## C4 — empty-after-trim credentials are rejected before any effect -/

/-- C4: when either credential is empty after trimming, `loginHandler`
returns the state and store unchanged and performs no network call. -/
theorem loginHandler_empty_guard (creds : LoginRequest) (fr : FetchResult)
    (p : AuthState × SessionStore)
    (h : jsTrim creds.email.data = [] ∨ jsTrim creds.password.data = []) :
    loginHandler creds fr p = (p, false) := by
  unfold loginHandler
  rw [if_pos h]

/-- C4 witness: `submit({email: "", password: "x"})` at the fresh start. -/
theorem loginHandler_empty_guard_witness :
    (jsTrim (LoginRequest.mk "" "x").email.data = [] ∨
      jsTrim (LoginRequest.mk "" "x").password.data = []) ∧
    loginHandler ⟨"", "x"⟩ fetchA freshStart = (freshStart, false) :=
  ⟨Or.inl rfl, loginHandler_empty_guard ⟨"", "x"⟩ fetchA freshStart (Or.inl rfl)⟩

/-! ## C1 — decode failure after a 2xx response -/

/-- C1 counterexample: with a 2xx `success: true` response whose token
`"notajwt"` fails to decode, the decode indeed returns null, but the
login transition does NOT land in `loginFailed`: the `fulfilled` reducer
runs and sets `isAuthenticated := true` with no error recorded. -/
theorem login_decodeFail_cex :
    decodeJWT "notajwt" = none ∧
    (loginAsyncOp fetchBad freshStart).1.isAuthenticated = true ∧
    (loginAsyncOp fetchBad freshStart).1.error = none := by
  decide

/-- C1 amended: on a 2xx response with `success: true` and a non-empty
access token whose decode fails, `decodeJWT` returns null without
throwing and `login` still resolves, so the transition lands in the
fulfilled state: `user = null` but `isAuthenticated = true`, `error =
null`, `loading = false`. -/
theorem login_decodeFail_fulfilled (body : LoginBody) (p : AuthState × SessionStore)
    (hs : body.success = true) (ha : body.accessToken ≠ "")
    (hd : decodeJWT body.accessToken = none) :
    (loginAsyncOp (FetchResult.response ⟨true, body⟩) p).1.user = none ∧
    (loginAsyncOp (FetchResult.response ⟨true, body⟩) p).1.isAuthenticated = true ∧
    (loginAsyncOp (FetchResult.response ⟨true, body⟩) p).1.error = none ∧
    (loginAsyncOp (FetchResult.response ⟨true, body⟩) p).1.loading = false := by
  simp [loginAsyncOp, login, handleApiResponse, hs, ha, hd, fulfilledReducer, pendingReducer]

/-- C1 witness: the amended statement at the concrete `"notajwt"` run. -/
theorem login_decodeFail_fulfilled_witness :
    (loginAsyncOp (FetchResult.response ⟨true, bodyBad⟩) freshStart).1.user = none ∧
    (loginAsyncOp (FetchResult.response ⟨true, bodyBad⟩) freshStart).1.isAuthenticated = true ∧
    (loginAsyncOp (FetchResult.response ⟨true, bodyBad⟩) freshStart).1.error = none ∧
    (loginAsyncOp (FetchResult.response ⟨true, bodyBad⟩) freshStart).1.loading = false :=
  login_decodeFail_fulfilled bodyBad freshStart rfl (by decide) (by decide)

/-! ## C6 — failed login: resulting state, store untouched -/

/-- C6 counterexample: a non-2xx response whose body carries the server
message `""` yields `error = "An error occurred"`, not the server
message. -/
theorem login_failure_empty_message_cex :
    (loginAsyncOp (FetchResult.response ⟨false, ⟨false, "", "", ""⟩⟩) freshStart).1.error =
      some "An error occurred" ∧
    (loginAsyncOp (FetchResult.response ⟨false, ⟨false, "", "", ""⟩⟩) freshStart).1.error ≠
      some "" := by
  decide

/-- C6 amended: a failed login leaves the store untouched and produces
exactly the state `{user: null, accessToken: null, refreshToken: null,
isAuthenticated: false, loading: false, error: E, loginMessage: null}`,
where `E` is the server message when the response is non-2xx with a
non-empty message (`"An error occurred"` when the message is
empty/absent) and `"Network error or server unavailable"` on a transport
error; in particular a 401 with message `"Invalid credentials"` yields
that error verbatim. -/
theorem login_failure_state_and_store :
    (∀ (body : LoginBody) (p : AuthState × SessionStore),
      loginAsyncOp (FetchResult.response ⟨false, body⟩) p =
        (⟨none, none, none, false, false,
          some (if body.message = "" then "An error occurred" else body.message), none⟩, p.2)) ∧
    (∀ p : AuthState × SessionStore,
      loginAsyncOp FetchResult.networkError p =
        (⟨none, none, none, false, false,
          some "Network error or server unavailable", none⟩, p.2)) ∧
    (loginAsyncOp (FetchResult.response ⟨false, ⟨false, "", "", "Invalid credentials"⟩⟩)
        freshStart).1.error = some "Invalid credentials" := by
  refine ⟨fun body p => ?_, fun p => rfl, by decide⟩
  rfl

/-! ## C10 — decode failure still persists the tokens -/

/-- C10 counterexample: starting from a store that already holds a `user`
entry, a 2xx login whose token fails to decode leaves that entry in
place, so the store does NOT end up without a user-record key. -/
theorem login_decodeFail_store_cex :
    ((loginAsyncOp fetchBad
        (initialStateFrom ⟨none, none, some "old"⟩, ⟨none, none, some "old"⟩)).2).user =
      some "old" := by
  decide

/-- C10 amended: on a 2xx `success: true` response with a non-empty token
whose decode fails, both tokens are written to the store (the writes
precede the decode attempt, so they survive its failure) and the
user-record entry is left exactly as it was — in particular absent when
the store started without one. -/
theorem login_decodeFail_store (body : LoginBody) (p : AuthState × SessionStore)
    (hs : body.success = true) (ha : body.accessToken ≠ "")
    (hd : decodeJWT body.accessToken = none) :
    (loginAsyncOp (FetchResult.response ⟨true, body⟩) p).2 =
      ⟨some body.accessToken, some body.refreshToken, p.2.user⟩ := by
  simp [loginAsyncOp, login, handleApiResponse, hs, ha, hd]

/-- C10 witness: the amended statement on the `"notajwt"` run from the
empty store; the user key ends up absent there. -/
theorem login_decodeFail_store_witness :
    (loginAsyncOp (FetchResult.response ⟨true, bodyBad⟩) freshStart).2 =
      ⟨some "notajwt", some "r1", none⟩ :=
  login_decodeFail_store bodyBad freshStart rfl (by decide) (by decide)

/-! ## C5 — characterization of decode failure -/

/-- C5 counterexample: a token with a single `.` (two segments, not
three) whose second segment is valid base64 JSON decodes successfully,
so "fails exactly when the string does not contain exactly two `.`
delimiters producing three segments, or ..." is false. -/
theorem decodeJWT_two_segments_cex :
    (jsSplit '.' oneDotToken.data).length = 2 ∧
    decodeJWT oneDotToken = some [("email", "x")] := by
  decide

/-- C5 amended: `decodeJWT` is total (returns an `Option`, never raises)
and returns null exactly when the split on `.` has no segment at index 1,
or that segment is not valid base64, or the decoded bytes do not parse as
a flat record; the total number of segments is otherwise irrelevant, and
in every other case a non-null record is returned. -/
theorem decodeJWT_none_iff (t : String) :
    decodeJWT t = none ↔
      ((jsSplit '.' t.data)[1]? = none ∨
       ∃ payload, (jsSplit '.' t.data)[1]? = some payload ∧
         (atob payload = none ∨
          ∃ bytes, atob payload = some bytes ∧
            jsonParseRecord (bytes.map Char.ofNat) = none)) := by
  unfold decodeJWT
  cases h1 : (jsSplit '.' t.data)[1]? with
  | none => simp
  | some payload =>
    cases h2 : atob payload with
    | none => simp [h2]
    | some bytes =>
      cases h3 : jsonParseRecord (bytes.map Char.ofNat) with
      | none => simp [h2, h3]
      | some r => simp [h2, h3]

/-! ## C2 — the user/accessToken pairing invariant -/

/-- Every single operation keeps the direction "non-null user implies
non-null accessToken" of the invariant. -/
theorem applyOp_user_implies_token (op : AuthOp) (p : AuthState × SessionStore)
    (h : p.1.user ≠ none → p.1.accessToken ≠ none) :
    (applyOp op p).1.user ≠ none → (applyOp op p).1.accessToken ≠ none := by
  cases op with
  | logout => simp [applyOp, logoutReducer]
  | clearError => simpa [applyOp, clearErrorReducer] using h
  | login fr =>
    cases fr with
    | networkError => simp [applyOp, loginAsyncOp, login, rejectedReducer]
    | response resp =>
      obtain ⟨ok, body⟩ := resp
      cases ok with
      | false => simp [applyOp, loginAsyncOp, login, handleApiResponse, rejectedReducer]
      | true =>
        by_cases hc : body.success = true ∧ body.accessToken ≠ ""
        · cases hdec : decodeJWT body.accessToken with
          | none =>
            simp [applyOp, loginAsyncOp, login, handleApiResponse, hc, hdec,
              fulfilledReducer, pendingReducer]
          | some d =>
            simp [applyOp, loginAsyncOp, login, handleApiResponse, hc, hdec,
              fulfilledReducer, pendingReducer, hc.2]
        · simp [applyOp, loginAsyncOp, login, handleApiResponse, hc,
            fulfilledReducer, pendingReducer]

/-- The invariant direction propagates along any operation sequence. -/
theorem runOps_user_implies_token (ops : List AuthOp) (p : AuthState × SessionStore)
    (h : p.1.user ≠ none → p.1.accessToken ≠ none) :
    (runOps ops p).1.user ≠ none → (runOps ops p).1.accessToken ≠ none := by
  induction ops generalizing p with
  | nil => exact h
  | cons op ops ih => exact ih (applyOp op p) (applyOp_user_implies_token op p h)

/-- C2 counterexample: the state reached by one login against a 2xx
`success: true` response whose token fails to decode has `user = null`
but `accessToken` non-null, so the biconditional invariant fails on a
reachable state. -/
theorem reachable_user_iff_token_cex :
    ¬ (∀ p : AuthState × SessionStore, Reachable p →
        ((p.1.user ≠ none) ↔ (p.1.accessToken ≠ none))) := by
  intro hall
  have hr : Reachable (runOps [AuthOp.login fetchBad] freshStart) :=
    ⟨[AuthOp.login fetchBad], rfl⟩
  have h2 := hall _ hr
  have hu : (runOps [AuthOp.login fetchBad] freshStart).1.user = none := by decide
  have ht : (runOps [AuthOp.login fetchBad] freshStart).1.accessToken = some "notajwt" := by
    decide
  rw [hu, ht] at h2
  simp at h2

/-- C2 amended: in every reachable state only one direction of the
invariant holds — a non-null user record implies a non-null access token
(the converse fails, see the counterexample). -/
theorem reachable_user_implies_token (p : AuthState × SessionStore) (h : Reachable p) :
    p.1.user ≠ none → p.1.accessToken ≠ none := by
  obtain ⟨ops, rfl⟩ := h
  exact runOps_user_implies_token ops _ (by simp [initialStateFrom, getStoredUser, emptyStore])

/-- C2 witness: the amended statement at the state reached by scenario
A's successful login, whose user record is non-null. -/
theorem reachable_user_implies_token_witness :
    (runOps [AuthOp.login fetchA] freshStart).1.accessToken ≠ none :=
  reachable_user_implies_token (runOps [AuthOp.login fetchA] freshStart)
    ⟨[AuthOp.login fetchA], rfl⟩ (by decide)

/-! ## C3 — projection of the payload claims into the user record -/

/-- C3: when the payload record of the access token carries the claims
`email`, `nameid`, `unique_name` and `role`, a successful login produces
a user record carrying exactly those values (`nameid` as the id,
`unique_name` as the display name), with `isAuthenticated = true` and no
error. -/
theorem login_success_user_projection (body : LoginBody) (p : AuthState × SessionStore)
    (d : List (String × String)) (e n u r : String)
    (hs : body.success = true) (ha : body.accessToken ≠ "")
    (hd : decodeJWT body.accessToken = some d)
    (he : lookupField "email" d = some e)
    (hn : lookupField "nameid" d = some n)
    (hu : lookupField "unique_name" d = some u)
    (hr : lookupField "role" d = some r) :
    (loginAsyncOp (FetchResult.response ⟨true, body⟩) p).1.user =
      some ⟨some e, some n, some u, some r⟩ ∧
    (loginAsyncOp (FetchResult.response ⟨true, body⟩) p).1.isAuthenticated = true ∧
    (loginAsyncOp (FetchResult.response ⟨true, body⟩) p).1.error = none := by
  simp [loginAsyncOp, login, handleApiResponse, hs, ha, hd, fulfilledReducer,
    pendingReducer, userInfoOfRecord, he, hn, hu, hr]

/-- C3 witness: the end-to-end scenario — payload
`{email:"a@b.com", nameid:"42", unique_name:"Alice", role:"Admin"}` —
ends with exactly that user record, authenticated and error-free. -/
theorem login_success_user_projection_witness :
    (loginAsyncOp (FetchResult.response ⟨true, bodyA⟩) freshStart).1.user =
      some ⟨some "a@b.com", some "42", some "Alice", some "Admin"⟩ ∧
    (loginAsyncOp (FetchResult.response ⟨true, bodyA⟩) freshStart).1.isAuthenticated = true ∧
    (loginAsyncOp (FetchResult.response ⟨true, bodyA⟩) freshStart).1.error = none :=
  login_success_user_projection bodyA freshStart
    [("email", "a@b.com"), ("nameid", "42"), ("unique_name", "Alice"), ("role", "Admin")]
    "a@b.com" "42" "Alice" "Admin"
    rfl (by decide) (by decide) rfl rfl rfl rfl

/-! ## Parser/printer lemmas for the persistence round-trip -/

/-- Rebuilding a string from its own characters gives it back. -/
theorem asString_data (s : String) : s.data.asString = s := rfl

/-- Parsing a clean string body followed by its closing quote returns
exactly that body. -/
theorem parseStringChars_append (s r : List Char) (h : CleanChars s) :
    parseStringChars (s ++ '"' :: r) = some (s, r) := by
  induction s with
  | nil => simp [parseStringChars]
  | cons c cs ih =>
    have hc := h c (by simp)
    simp only [List.cons_append, List.append_eq, parseStringChars]
    rw [if_neg hc.1, if_neg hc.2, ih (fun x hx => h x (by simp [hx]))]

/-- The body returned by `parseStringChars` is clean. -/
theorem parseStringChars_clean (cs sl r : List Char)
    (h : parseStringChars cs = some (sl, r)) : CleanChars sl := by
  induction cs generalizing sl r with
  | nil => simp [parseStringChars] at h
  | cons c rest ih =>
    by_cases h1 : c = '"'
    · simp [parseStringChars, h1] at h
      obtain ⟨rfl, rfl⟩ := h
      intro x hx
      simp at hx
    · by_cases h2 : c = '\\'
      · simp [parseStringChars, h1, h2] at h
      · cases hrec : parseStringChars rest with
        | none => simp [parseStringChars, h1, h2, hrec] at h
        | some pr =>
          obtain ⟨s1, r1⟩ := pr
          simp [parseStringChars, h1, h2, hrec] at h
          obtain ⟨rfl, rfl⟩ := h
          intro x hx
          rcases List.mem_cons.mp hx with hx1 | hx2
          · exact hx1 ▸ ⟨h1, h2⟩
          · exact ih s1 r1 hrec x hx2

/-- The key and value produced by `parseMember` are clean. -/
theorem parseMember_clean (cs : List Char) (m : String × String) (r : List Char)
    (h : parseMember cs = some (m, r)) :
    CleanChars m.1.data ∧ CleanChars m.2.data := by
  unfold parseMember at h
  split at h
  · rename_i cs1
    split at h
    · rename_i k cs3 hk
      split at h
      · rename_i v cs4 hv
        simp at h
        obtain ⟨rfl, rfl⟩ := h
        exact ⟨parseStringChars_clean cs1 k _ hk,
               parseStringChars_clean cs3 v _ hv⟩
      · simp at h
    · simp at h
  · simp at h

/-- Every key and value produced by `parseMembers` is clean. -/
theorem parseMembers_clean (fuel : Nat) (cs : List Char)
    (ms : List (String × String)) (r : List Char)
    (h : parseMembers fuel cs = some (ms, r)) :
    ∀ m ∈ ms, CleanChars m.1.data ∧ CleanChars m.2.data := by
  induction fuel generalizing cs ms r with
  | zero => simp [parseMembers] at h
  | succ fuel ih =>
    unfold parseMembers at h
    split at h
    · rename_i m1 r1 hm
      simp at h
      obtain ⟨rfl, rfl⟩ := h
      intro m hm2
      simp at hm2
      exact hm2 ▸ parseMember_clean cs m1 _ hm
    · rename_i m1 cs5 hm
      cases hrec : parseMembers fuel cs5 with
      | none => rw [hrec] at h; simp at h
      | some pr2 =>
        obtain ⟨ms2, r2⟩ := pr2
        rw [hrec] at h
        simp at h
        obtain ⟨rfl, rfl⟩ := h
        intro m hm2
        rcases List.mem_cons.mp hm2 with hm3 | hm3
        · exact hm3 ▸ parseMember_clean cs m1 _ hm
        · exact ih cs5 ms2 r2 hrec m hm3
    · simp at h

/-- Inversion: `parseMember` inverts `stringifyMember` on clean keys and values. -/
theorem parseMember_stringify (k v : String) (r : List Char)
    (hk : CleanChars k.data) (hv : CleanChars v.data) :
    parseMember (stringifyMember (k, v) ++ r) = some ((k, v), r) := by
  simp only [stringifyMember, List.cons_append, List.append_assoc, List.singleton_append,
    List.nil_append]
  simp only [parseMember, parseStringChars_append k.data _ hk,
    parseStringChars_append v.data _ hv]
  simp [asString_data]

/-- Parsing the serialization of a nonempty clean member list (with
enough fuel) returns exactly that list. -/
theorem parseMembers_stringify (ms : List (String × String)) (r : List Char)
    (h : ∀ m ∈ ms, CleanChars m.1.data ∧ CleanChars m.2.data) (hne : ms ≠ [])
    (fuel : Nat) (hf : ms.length ≤ fuel) :
    parseMembers fuel (stringifyMembers ms ++ '}' :: r) = some (ms, r) := by
  induction ms generalizing fuel r with
  | nil => exact absurd rfl hne
  | cons m tail ih =>
    obtain ⟨k, v⟩ := m
    obtain ⟨fuel, rfl⟩ : ∃ f, fuel = f + 1 := ⟨fuel - 1, by simp at hf; omega⟩
    have hk := (h (k, v) (by simp)).1
    have hv := (h (k, v) (by simp)).2
    cases tail with
    | nil =>
      simp only [stringifyMembers]
      unfold parseMembers
      simp only [parseMember_stringify k v _ hk hv]
    | cons m2 tail2 =>
      simp only [stringifyMembers, List.cons_append, List.append_assoc]
      unfold parseMembers
      simp only [parseMember_stringify k v _ hk hv]
      simp only [ih r (fun x hx => h x (by simp [hx])) (by simp) fuel
        (by simp at hf ⊢; omega)]

/-- The serialization of a member list is at least as long as the
list. -/
theorem stringifyMembers_length_ge (ms : List (String × String)) :
    ms.length ≤ (stringifyMembers ms).length := by
  induction ms with
  | nil => simp [stringifyMembers]
  | cons m tail ih =>
    cases tail with
    | nil => simp [stringifyMembers, stringifyMember]
    | cons m2 t2 =>
      simp only [stringifyMembers, stringifyMember] at ih ⊢
      simp only [List.length_cons, List.length_append] at ih ⊢
      omega

/-- Round trip: parsing the serialization of a clean record returns
exactly that record. -/
theorem jsonParseRecord_stringify (ms : List (String × String))
    (h : ∀ m ∈ ms, CleanChars m.1.data ∧ CleanChars m.2.data) :
    jsonParseRecord (stringifyRecord ms) = some ms := by
  cases ms with
  | nil => rfl
  | cons m tail =>
    have hlen : (m :: tail).length ≤ (stringifyMembers (m :: tail)).length :=
      stringifyMembers_length_ge _
    have hne2 : stringifyMembers (m :: tail) ++ ['}'] ≠ ['}'] := by
      intro hcontra
      have hl := congrArg List.length hcontra
      simp [List.length_append] at hl
      simp [hl] at hlen
    simp only [stringifyRecord, List.cons_append, jsonParseRecord]
    rw [if_neg hne2]
    rw [show stringifyMembers (m :: tail) ++ ['}'] =
          stringifyMembers (m :: tail) ++ '}' :: ([] : List Char) from rfl]
    rw [parseMembers_stringify (m :: tail) [] h (by simp) _
      (by simp [List.length_append] at hlen ⊢; omega)]

/-- Every key and value of a parsed record is clean. -/
theorem jsonParseRecord_clean (cs : List Char) (ms : List (String × String))
    (h : jsonParseRecord cs = some ms) :
    ∀ m ∈ ms, CleanChars m.1.data ∧ CleanChars m.2.data := by
  unfold jsonParseRecord at h
  split at h
  · rename_i body
    by_cases hb : body = ['}']
    · rw [if_pos hb] at h
      simp at h
      subst h
      intro m hm
      simp at hm
    · rw [if_neg hb] at h
      cases hp : parseMembers body.length body with
      | none => rw [hp] at h; simp at h
      | some pr =>
        obtain ⟨ms2, rest⟩ := pr
        rw [hp] at h
        cases rest with
        | nil =>
          simp at h
          subst h
          exact parseMembers_clean _ _ _ _ hp
        | cons c t => simp at h
  · simp at h

/-- Every value of a decoded JWT payload record is clean. -/
theorem decodeJWT_clean (t : String) (d : List (String × String))
    (h : decodeJWT t = some d) :
    ∀ m ∈ d, CleanChars m.1.data ∧ CleanChars m.2.data := by
  unfold decodeJWT at h
  cases h1 : (jsSplit '.' t.data)[1]? with
  | none => simp [h1] at h
  | some payload =>
    simp only [h1] at h
    cases h2 : atob payload with
    | none => simp [h2] at h
    | some bytes =>
      simp only [h2] at h
      exact jsonParseRecord_clean _ _ h

/-- A successful lookup means the pair is in the record. -/
theorem lookupField_mem (k v : String) (ms : List (String × String))
    (h : lookupField k ms = some v) : (k, v) ∈ ms := by
  induction ms with
  | nil => simp [lookupField] at h
  | cons m tail ih =>
    obtain ⟨k2, v2⟩ := m
    by_cases hk : k2 = k
    · subst hk
      simp [lookupField] at h
      subst h
      simp
    · simp [lookupField, hk] at h
      exact List.mem_cons_of_mem _ (ih h)

/-- Membership in a single optional entry. -/
theorem mem_optEntry (k : String) (v : Option String) (m : String × String) :
    m ∈ optEntry k v ↔ m.1 = k ∧ v = some m.2 := by
  cases v with
  | none => simp [optEntry]
  | some x =>
    obtain ⟨m1, m2⟩ := m
    simp [optEntry, Prod.ext_iff]
    intro
    exact eq_comm

/-- The record serialized for the user derived from a clean decoded
payload is itself clean. -/
theorem userToRecord_clean (d : List (String × String))
    (hd : ∀ m ∈ d, CleanChars m.1.data ∧ CleanChars m.2.data) :
    ∀ m ∈ userToRecord (userInfoOfRecord d),
      CleanChars m.1.data ∧ CleanChars m.2.data := by
  intro m hm
  have hm2 : (m.1 = "email" ∧ (userInfoOfRecord d).email = some m.2) ∨
      (m.1 = "nameid" ∧ (userInfoOfRecord d).nameid = some m.2) ∨
      (m.1 = "unique_name" ∧ (userInfoOfRecord d).unique_name = some m.2) ∨
      (m.1 = "role" ∧ (userInfoOfRecord d).role = some m.2) := by
    simpa [userToRecord, List.mem_append, mem_optEntry, or_assoc] using hm
  obtain ⟨m1, m2⟩ := m
  rcases hm2 with ⟨hk, hv⟩ | ⟨hk, hv⟩ | ⟨hk, hv⟩ | ⟨hk, hv⟩ <;> subst hk
  · have hl : lookupField "email" d = some m2 := by
      simpa [userInfoOfRecord] using hv
    exact ⟨(by decide : ∀ c ∈ ("email" : String).data, c ≠ '"' ∧ c ≠ '\\'),
      (hd ("email", m2) (lookupField_mem "email" m2 d hl)).2⟩
  · have hl : lookupField "nameid" d = some m2 := by
      simpa [userInfoOfRecord] using hv
    exact ⟨(by decide : ∀ c ∈ ("nameid" : String).data, c ≠ '"' ∧ c ≠ '\\'),
      (hd ("nameid", m2) (lookupField_mem "nameid" m2 d hl)).2⟩
  · have hl : lookupField "unique_name" d = some m2 := by
      simpa [userInfoOfRecord] using hv
    exact ⟨(by decide : ∀ c ∈ ("unique_name" : String).data, c ≠ '"' ∧ c ≠ '\\'),
      (hd ("unique_name", m2) (lookupField_mem "unique_name" m2 d hl)).2⟩
  · have hl : lookupField "role" d = some m2 := by
      simpa [userInfoOfRecord] using hv
    exact ⟨(by decide : ∀ c ∈ ("role" : String).data, c ≠ '"' ∧ c ≠ '\\'),
      (hd ("role", m2) (lookupField_mem "role" m2 d hl)).2⟩

/-- Projecting the serialized record back recovers the user info. -/
theorem userInfoOfRecord_userToRecord (u : UserInfo) :
    userInfoOfRecord (userToRecord u) = u := by
  obtain ⟨e, n, un, r⟩ := u
  cases e <;> cases n <;> cases un <;> cases r <;>
    simp [userInfoOfRecord, userToRecord, optEntry, lookupField]

/-! ## C7 — persistence round-trip -/

/-- C7: after a successful login (2xx `success: true`, non-empty token,
decode success), discarding the in-memory state and re-initializing from
the session store reproduces a state with `isAuthenticated = true` and
the same user record the login produced. -/
theorem login_persistence_roundtrip (body : LoginBody) (p : AuthState × SessionStore)
    (d : List (String × String))
    (hs : body.success = true) (ha : body.accessToken ≠ "")
    (hd : decodeJWT body.accessToken = some d) :
    (initialStateFrom (loginAsyncOp (FetchResult.response ⟨true, body⟩) p).2).isAuthenticated
      = true ∧
    (initialStateFrom (loginAsyncOp (FetchResult.response ⟨true, body⟩) p).2).user =
      (loginAsyncOp (FetchResult.response ⟨true, body⟩) p).1.user := by
  have hstore : (loginAsyncOp (FetchResult.response ⟨true, body⟩) p).2 =
      ⟨some body.accessToken, some body.refreshToken,
       some (stringifyUser (userInfoOfRecord d))⟩ := by
    simp [loginAsyncOp, login, handleApiResponse, hs, ha, hd]
  have huser : (loginAsyncOp (FetchResult.response ⟨true, body⟩) p).1.user =
      some (userInfoOfRecord d) := by
    simp [loginAsyncOp, login, handleApiResponse, hs, ha, hd, fulfilledReducer,
      pendingReducer]
  have hclean := userToRecord_clean d (decodeJWT_clean body.accessToken d hd)
  rw [hstore, huser]
  refine ⟨?_, ?_⟩
  · simp [initialStateFrom, isAuthenticatedFn, ha]
  · simp only [initialStateFrom]
    simp only [getStoredUser, stringifyUser]
    rw [show ((stringifyRecord (userToRecord (userInfoOfRecord d))).asString).data =
          stringifyRecord (userToRecord (userInfoOfRecord d)) from rfl]
    rw [jsonParseRecord_stringify _ hclean]
    simp [userInfoOfRecord_userToRecord]

/-- C7 witness: the round-trip at scenario A's concrete login. -/
theorem login_persistence_roundtrip_witness :
    (initialStateFrom (loginAsyncOp (FetchResult.response ⟨true, bodyA⟩) freshStart).2).isAuthenticated
      = true ∧
    (initialStateFrom (loginAsyncOp (FetchResult.response ⟨true, bodyA⟩) freshStart).2).user =
      (loginAsyncOp (FetchResult.response ⟨true, bodyA⟩) freshStart).1.user :=
  login_persistence_roundtrip bodyA freshStart
    [("email", "a@b.com"), ("nameid", "42"), ("unique_name", "Alice"), ("role", "Admin")]
    rfl (by decide) (by decide)

end Reducx
